import Mathlib

/-!
Verification of the hrut journaling client.

Shallow embedding of the date-scope resolution, breadcrumb, prompt-selection,
aggregation, fetch-fallback and pagination logic of the client
(src/client/src/main.ts and the variant client in src/unnamed/part_000).

Dates are modelled as proleptic Gregorian calendar dates.  JavaScript Date
objects at local midnight are in bijection with calendar dates, and
`getDay` / `getTime` differences correspond to the day number `toDays`
below (Jan 1 of year 1 has `toDays = 1` and is a Monday, so
`toDays % 7` equals the JavaScript `getDay` convention 0 = Sunday,
1 = Monday, ..., 6 = Saturday).
-/

/-- A proleptic Gregorian calendar date (month and day are 1-based). -/
structure Date where
  year : Nat
  month : Nat
  day : Nat
deriving Repr, DecidableEq

/-- Gregorian leap-year rule. -/
def isLeapYear (y : Nat) : Bool :=
  decide ((y % 4 = 0 ∧ y % 100 ≠ 0) ∨ y % 400 = 0)

/-- 1 in a leap year, 0 otherwise. -/
def leapOffset (y : Nat) : Nat := if isLeapYear y then 1 else 0

/-- Number of days in a month of a given year. -/
def daysInMonth (y m : Nat) : Nat :=
  match m with
  | 1 => 31
  | 2 => 28 + leapOffset y
  | 3 => 31
  | 4 => 30
  | 5 => 31
  | 6 => 30
  | 7 => 31
  | 8 => 31
  | 9 => 30
  | 10 => 31
  | 11 => 30
  | 12 => 31
  | _ => 30

/-- Days of the year strictly before the first day of month `m`. -/
def daysBeforeMonth (y m : Nat) : Nat :=
  match m with
  | 1 => 0
  | 2 => 31
  | 3 => 59 + leapOffset y
  | 4 => 90 + leapOffset y
  | 5 => 120 + leapOffset y
  | 6 => 151 + leapOffset y
  | 7 => 181 + leapOffset y
  | 8 => 212 + leapOffset y
  | 9 => 243 + leapOffset y
  | 10 => 273 + leapOffset y
  | 11 => 304 + leapOffset y
  | 12 => 334 + leapOffset y
  | _ => 0

/-- Days in all years strictly before year `y` (proleptic Gregorian). -/
def daysBeforeYear (y : Nat) : Nat :=
  365 * (y - 1) + (y - 1) / 4 + (y - 1) / 400 - (y - 1) / 100

/-- Day number of a date: Jan 1 of year 1 is day 1.  This corresponds to the
JavaScript `getTime` value (divided by 86400000) up to a constant shift, so
differences and weekday computations agree with the source. -/
def Date.toDays (d : Date) : Nat :=
  daysBeforeYear d.year + daysBeforeMonth d.year d.month + d.day

/-- Ordinal day of the year, as computed by the source from the
millisecond difference to Dec 31 of the previous year
(`choosePrompt` in src/unnamed/part_000). -/
def dayOfYear (d : Date) : Nat := daysBeforeMonth d.year d.month + d.day

/-- JavaScript `getDay`: 0 = Sunday, 1 = Monday, ..., 6 = Saturday. -/
def Date.getDay (d : Date) : Nat := d.toDays % 7

/-- A date is valid when its components are in calendar range. -/
def Date.Valid (d : Date) : Prop :=
  1 ≤ d.year ∧ 1 ≤ d.month ∧ d.month ≤ 12 ∧ 1 ≤ d.day ∧ d.day ≤ daysInMonth d.year d.month

instance (d : Date) : Decidable d.Valid := by
  unfold Date.Valid; infer_instance

/-- The previous calendar day. -/
def Date.pred (d : Date) : Date :=
  if 2 ≤ d.day then ⟨d.year, d.month, d.day - 1⟩
  else if 2 ≤ d.month then ⟨d.year, d.month - 1, daysInMonth d.year (d.month - 1)⟩
  else ⟨d.year - 1, 12, 31⟩

/-- The next calendar day. -/
def Date.succ (d : Date) : Date :=
  if d.day < daysInMonth d.year d.month then ⟨d.year, d.month, d.day + 1⟩
  else if d.month < 12 then ⟨d.year, d.month + 1, 1⟩
  else ⟨d.year + 1, 1, 1⟩

/-- Going `n` calendar days back. -/
def Date.subDays (d : Date) : Nat → Date
  | 0 => d
  | n + 1 => (d.subDays n).pred

/-- Going `n` calendar days forward. -/
def Date.addDays (d : Date) : Nat → Date
  | 0 => d
  | n + 1 => (d.addDays n).succ

lemma daysInMonth_pos (y m : Nat) : 1 ≤ daysInMonth y m := by
  unfold daysInMonth leapOffset
  split <;> omega

lemma daysBeforeYear_succ (y : Nat) (hy : 1 ≤ y) :
    daysBeforeYear (y + 1) = daysBeforeYear y + 365 + leapOffset y := by
  unfold daysBeforeYear leapOffset isLeapYear
  by_cases h4 : y % 4 = 0 <;> by_cases h100 : y % 100 = 0 <;> by_cases h400 : y % 400 = 0 <;>
    simp [h4, h100, h400] <;> omega

lemma daysBeforeMonth_succ (y m : Nat) (h1 : 1 ≤ m) (h2 : m ≤ 11) :
    daysBeforeMonth y (m + 1) = daysBeforeMonth y m + daysInMonth y m := by
  interval_cases m <;> simp [daysBeforeMonth, daysInMonth] <;> omega

lemma toDays_pos (d : Date) (h : d.Valid) : 1 ≤ d.toDays := by
  obtain ⟨_, _, _, hd, _⟩ := h
  unfold Date.toDays
  omega

lemma date_valid_mk (y m day : Nat) (h1 : 1 ≤ y) (h2 : 1 ≤ m) (h3 : m ≤ 12)
    (h4 : 1 ≤ day) (h5 : day ≤ daysInMonth y m) : Date.Valid ⟨y, m, day⟩ :=
  ⟨h1, h2, h3, h4, h5⟩

lemma date_toDays_mk (y m day : Nat) :
    Date.toDays ⟨y, m, day⟩ = daysBeforeYear y + daysBeforeMonth y m + day := rfl

lemma toDays_pred (d : Date) (h : d.Valid) (h2 : 2 ≤ d.toDays) :
    d.pred.toDays = d.toDays - 1 ∧ d.pred.Valid := by
  obtain ⟨hy, hm1, hm2, hd1, hd2⟩ := h
  have ht : d.toDays = daysBeforeYear d.year + daysBeforeMonth d.year d.month + d.day := rfl
  unfold Date.pred
  split
  · rename_i hday
    refine ⟨?_, date_valid_mk _ _ _ hy hm1 hm2 (by omega) (by omega)⟩
    rw [date_toDays_mk]
    omega
  · split
    · rename_i hday hmon
      have hstep := daysBeforeMonth_succ d.year (d.month - 1) (by omega) (by omega)
      have hrw : d.month - 1 + 1 = d.month := by omega
      rw [hrw] at hstep
      refine ⟨?_, date_valid_mk _ _ _ hy (by omega) (by omega)
        (daysInMonth_pos _ _) (le_refl _)⟩
      rw [date_toDays_mk]
      omega
    · rename_i hday hmon
      have hm : d.month = 1 := by omega
      have hdd : d.day = 1 := by omega
      have hbm1 : daysBeforeMonth d.year 1 = 0 := rfl
      rw [hm, hdd, hbm1] at ht
      have hy2 : 2 ≤ d.year := by
        rcases Nat.lt_or_ge d.year 2 with hc | hc
        · have hy1 : d.year = 1 := by omega
          have h0 : daysBeforeYear 1 = 0 := rfl
          rw [hy1] at ht
          omega
        · exact hc
      have hstep := daysBeforeYear_succ (d.year - 1) (by omega)
      have hrw : d.year - 1 + 1 = d.year := by omega
      rw [hrw] at hstep
      have hbm12 : daysBeforeMonth (d.year - 1) 12 = 334 + leapOffset (d.year - 1) := rfl
      have hdim12 : daysInMonth (d.year - 1) 12 = 31 := rfl
      refine ⟨?_, date_valid_mk _ _ _ (by omega) (by omega) (by omega) (by omega)
        (le_of_eq hdim12.symm)⟩
      rw [date_toDays_mk]
      omega

lemma toDays_succ (d : Date) (h : d.Valid) :
    d.succ.toDays = d.toDays + 1 ∧ d.succ.Valid := by
  obtain ⟨hy, hm1, hm2, hd1, hd2⟩ := h
  have ht : d.toDays = daysBeforeYear d.year + daysBeforeMonth d.year d.month + d.day := rfl
  unfold Date.succ
  split
  · rename_i hday
    refine ⟨?_, date_valid_mk _ _ _ hy hm1 hm2 (by omega) (by omega)⟩
    rw [date_toDays_mk]
    omega
  · split
    · rename_i hday hmon
      have hstep := daysBeforeMonth_succ d.year d.month (by omega) (by omega)
      refine ⟨?_, date_valid_mk _ _ _ hy (by omega) (by omega) (by omega)
        (daysInMonth_pos _ _)⟩
      rw [date_toDays_mk]
      omega
    · rename_i hday hmon
      have hm : d.month = 12 := by omega
      have hbm12 : daysBeforeMonth d.year 12 = 334 + leapOffset d.year := rfl
      have hdim12 : daysInMonth d.year 12 = 31 := rfl
      have hbm1 : daysBeforeMonth (d.year + 1) 1 = 0 := rfl
      have hstep := daysBeforeYear_succ d.year hy
      rw [hm] at ht hd2 hday
      rw [hdim12] at hd2 hday
      refine ⟨?_, date_valid_mk _ _ _ (by omega) (by omega) (by omega) (by omega)
        (daysInMonth_pos _ _)⟩
      rw [date_toDays_mk]
      omega

lemma toDays_subDays (d : Date) (h : d.Valid) :
    ∀ n : Nat, n + 1 ≤ d.toDays →
      (d.subDays n).toDays = d.toDays - n ∧ (d.subDays n).Valid := by
  intro n
  induction n with
  | zero => intro _; exact ⟨by simp [Date.subDays], h⟩
  | succ k ih =>
    intro hk
    have ihk := ih (by omega)
    have hge : 2 ≤ (d.subDays k).toDays := by omega
    have hp := toDays_pred (d.subDays k) ihk.2 hge
    refine ⟨?_, hp.2⟩
    show (d.subDays k).pred.toDays = d.toDays - (k + 1)
    omega

lemma toDays_addDays (d : Date) (h : d.Valid) :
    ∀ n : Nat, (d.addDays n).toDays = d.toDays + n ∧ (d.addDays n).Valid := by
  intro n
  induction n with
  | zero => exact ⟨by simp [Date.addDays], h⟩
  | succ k ih =>
    have hs := toDays_succ (d.addDays k) ih.2
    refine ⟨?_, hs.2⟩
    show (d.addDays k).succ.toDays = d.toDays + (k + 1)
    omega

/-! ## Scope resolution (getDateRange in src/client/src/main.ts) -/

/-- The view scopes of the client. -/
inductive Scope where
  | summary
  | year
  | month
  | week
  | day
deriving Repr, DecidableEq

/-- date-fns startOfYear. -/
def startOfYear (d : Date) : Date := ⟨d.year, 1, 1⟩

/-- date-fns endOfYear (as a calendar date). -/
def endOfYear (d : Date) : Date := ⟨d.year, 12, 31⟩

/-- date-fns startOfMonth. -/
def startOfMonth (d : Date) : Date := ⟨d.year, d.month, 1⟩

/-- date-fns endOfMonth (as a calendar date). -/
def endOfMonth (d : Date) : Date := ⟨d.year, d.month, daysInMonth d.year d.month⟩

/-- date-fns startOfWeek with weekStartsOn 1: go back to the most recent
Monday.  The number of days subtracted is `(getDay + 6) % 7`. -/
def startOfWeek (d : Date) : Date := d.subDays ((d.getDay + 6) % 7)

/-- date-fns endOfWeek with weekStartsOn 1: the Sunday six days after
the week start (as a calendar date). -/
def endOfWeek (d : Date) : Date := (startOfWeek d).addDays 6

/-- date-fns startOfDay, at calendar-date granularity. -/
def startOfDay (d : Date) : Date := d

/-- date-fns endOfDay, at calendar-date granularity. -/
def endOfDay (d : Date) : Date := d

/-- getDateRange from src/client/src/main.ts: inclusive start and end of the
period containing `d` for the given scope. -/
def getDateRange (d : Date) (scope : Scope) : Date × Date :=
  match scope with
  | .summary => (startOfYear d, endOfYear d)
  | .year => (startOfYear d, endOfYear d)
  | .month => (startOfMonth d, endOfMonth d)
  | .week => (startOfWeek d, endOfWeek d)
  | .day => (startOfDay d, endOfDay d)

/-- Comparison of dates, as the JavaScript comparison of Date timestamps. -/
def Date.le (a b : Date) : Prop := a.toDays ≤ b.toDays

lemma startOfWeek_toDays (d : Date) (h : d.Valid) :
    (startOfWeek d).toDays = d.toDays - ((d.toDays + 6) % 7) ∧ (startOfWeek d).Valid := by
  have hpos := toDays_pos d h
  have hoff : (d.getDay + 6) % 7 = (d.toDays + 6) % 7 := by
    unfold Date.getDay
    omega
  have hle : (d.toDays + 6) % 7 + 1 ≤ d.toDays := by omega
  have := toDays_subDays d h ((d.toDays + 6) % 7) hle
  unfold startOfWeek
  rw [hoff]
  exact this

lemma startOfWeek_monday (d : Date) (h : d.Valid) :
    (startOfWeek d).toDays % 7 = 1 := by
  have hpos := toDays_pos d h
  have hs := (startOfWeek_toDays d h).1
  omega

lemma endOfWeek_toDays (d : Date) (h : d.Valid) :
    (endOfWeek d).toDays = (startOfWeek d).toDays + 6 ∧ (endOfWeek d).Valid := by
  have hs := startOfWeek_toDays d h
  have := toDays_addDays (startOfWeek d) hs.2 6
  exact this

lemma daysBeforeMonth_day_le (d : Date) (h : d.Valid) :
    daysBeforeMonth d.year d.month + d.day ≤ 365 + leapOffset d.year := by
  obtain ⟨y, m, day⟩ := d
  obtain ⟨hy, hm1, hm2, hd1, hd2⟩ := h
  simp only at hm1 hm2 hd1 hd2 ⊢
  interval_cases m <;>
    simp [daysBeforeMonth, daysInMonth] at hd2 ⊢ <;> omega

lemma week_2025_03_09 :
    getDateRange ⟨2025, 3, 9⟩ .week = (⟨2025, 3, 3⟩, ⟨2025, 3, 9⟩) := by
  decide

/-- Claim C1: resolveRange returns the calendar year for the summary and year
scopes, the calendar month for month, the Monday-to-Sunday week containing the
date for week, and the single day for day; in particular the week containing
Sunday 2025-03-09 is 2025-03-03 to 2025-03-09. -/
theorem resolveRange_spec (d : Date) (h : d.Valid) :
    getDateRange d .summary = (⟨d.year, 1, 1⟩, ⟨d.year, 12, 31⟩) ∧
    getDateRange d .year = (⟨d.year, 1, 1⟩, ⟨d.year, 12, 31⟩) ∧
    getDateRange d .month =
      (⟨d.year, d.month, 1⟩, ⟨d.year, d.month, daysInMonth d.year d.month⟩) ∧
    getDateRange d .day = (d, d) ∧
    getDateRange d .week = (startOfWeek d, endOfWeek d) ∧
    (startOfWeek d).toDays % 7 = 1 ∧
    (startOfWeek d).le d ∧
    d.toDays < (startOfWeek d).toDays + 7 ∧
    (endOfWeek d).toDays = (startOfWeek d).toDays + 6 ∧
    (endOfWeek d).toDays % 7 = 0 ∧
    getDateRange ⟨2025, 3, 9⟩ .week = (⟨2025, 3, 3⟩, ⟨2025, 3, 9⟩) := by
  have hpos := toDays_pos d h
  have hs := startOfWeek_toDays d h
  have he1 := (endOfWeek_toDays d h).1
  have hmon := startOfWeek_monday d h
  refine ⟨rfl, rfl, rfl, rfl, rfl, hmon, ?_, ?_, he1, ?_, week_2025_03_09⟩
  · show (startOfWeek d).toDays ≤ d.toDays
    omega
  · show d.toDays < (startOfWeek d).toDays + 7
    omega
  · rw [he1]
    clear he1
    omega

/-- Witness for C1 at the concrete date 2025-03-09. -/
theorem resolveRange_spec_inst :
    getDateRange ⟨2025, 3, 9⟩ .week = (⟨2025, 3, 3⟩, ⟨2025, 3, 9⟩) :=
  (resolveRange_spec ⟨2025, 3, 9⟩ (by decide)).2.2.2.2.2.2.2.2.2.2

/-- Claim C7: for every valid date and every scope the resolved range
contains the date, and the summary scope always spans the full calendar
year of the date. -/
theorem resolveRange_contains (d : Date) (h : d.Valid) (scope : Scope) :
    (getDateRange d scope).1.le d ∧ d.le (getDateRange d scope).2 ∧
    getDateRange d .summary = (startOfYear d, endOfYear d) := by
  obtain ⟨hy, hm1, hm2, hd1, hd2⟩ := h
  have ht : d.toDays = daysBeforeYear d.year + daysBeforeMonth d.year d.month + d.day := rfl
  have hyear := daysBeforeMonth_day_le d ⟨hy, hm1, hm2, hd1, hd2⟩
  cases scope with
  | summary =>
    refine ⟨?_, ?_, rfl⟩
    · show Date.toDays ⟨d.year, 1, 1⟩ ≤ d.toDays
      have hq : Date.toDays ⟨d.year, 1, 1⟩ = daysBeforeYear d.year + 0 + 1 := rfl
      omega
    · show d.toDays ≤ Date.toDays ⟨d.year, 12, 31⟩
      have hq : Date.toDays ⟨d.year, 12, 31⟩ =
          daysBeforeYear d.year + (334 + leapOffset d.year) + 31 := rfl
      omega
  | year =>
    refine ⟨?_, ?_, rfl⟩
    · show Date.toDays ⟨d.year, 1, 1⟩ ≤ d.toDays
      have hq : Date.toDays ⟨d.year, 1, 1⟩ = daysBeforeYear d.year + 0 + 1 := rfl
      omega
    · show d.toDays ≤ Date.toDays ⟨d.year, 12, 31⟩
      have hq : Date.toDays ⟨d.year, 12, 31⟩ =
          daysBeforeYear d.year + (334 + leapOffset d.year) + 31 := rfl
      omega
  | month =>
    refine ⟨?_, ?_, rfl⟩
    · show Date.toDays ⟨d.year, d.month, 1⟩ ≤ d.toDays
      have hq : Date.toDays ⟨d.year, d.month, 1⟩ =
          daysBeforeYear d.year + daysBeforeMonth d.year d.month + 1 := rfl
      omega
    · show d.toDays ≤ Date.toDays ⟨d.year, d.month, daysInMonth d.year d.month⟩
      have hq : Date.toDays ⟨d.year, d.month, daysInMonth d.year d.month⟩ =
          daysBeforeYear d.year + daysBeforeMonth d.year d.month +
            daysInMonth d.year d.month := rfl
      omega
  | week =>
    have hpos := toDays_pos d ⟨hy, hm1, hm2, hd1, hd2⟩
    have hs := startOfWeek_toDays d ⟨hy, hm1, hm2, hd1, hd2⟩
    have he1 := (endOfWeek_toDays d ⟨hy, hm1, hm2, hd1, hd2⟩).1
    have k1 : (getDateRange d .week).1 = startOfWeek d := by simp only [getDateRange]
    have k2 : (getDateRange d .week).2 = endOfWeek d := by simp only [getDateRange]
    rw [k1, k2]
    refine ⟨?_, ?_, rfl⟩
    · show (startOfWeek d).toDays ≤ d.toDays
      omega
    · show d.toDays ≤ (endOfWeek d).toDays
      rw [he1]
      clear he1 k2
      omega
  | day => exact ⟨le_refl _, le_refl _, rfl⟩

/-- Witness for C7 at the concrete date 2025-03-09 with scope week. -/
theorem resolveRange_contains_inst :
    (getDateRange ⟨2025, 3, 9⟩ .week).1.le ⟨2025, 3, 9⟩ ∧
    Date.le ⟨2025, 3, 9⟩ (getDateRange ⟨2025, 3, 9⟩ .week).2 :=
  ⟨(resolveRange_contains ⟨2025, 3, 9⟩ (by decide) .week).1,
   (resolveRange_contains ⟨2025, 3, 9⟩ (by decide) .week).2.1⟩

/-! ## Week-of-month and breadcrumbs (renderBreadcrumbs) -/

/-- Week number within the month, from renderBreadcrumbs: one plus the number
of whole weeks between the Monday-aligned week start of the first of the month
and the Monday-aligned week start of the date (the source divides the
millisecond difference of the two week starts by one week). -/
def weekOfMonth (d : Date) : Nat :=
  ((startOfWeek d).toDays - (startOfWeek (startOfMonth d)).toDays) / 7 + 1

/-- Number of Mondays in the half-open day-number interval (a, b]. -/
def mondaysBetween (a b : Nat) : Nat :=
  ((Finset.Ioc a b).filter (fun n => n % 7 = 1)).card

lemma mondays_Ioc_week (c : Nat) (hc : c % 7 = 1) :
    (Finset.Ioc c (c + 7)).filter (fun n => n % 7 = 1) = {c + 7} := by
  ext n
  simp only [Finset.mem_filter, Finset.mem_Ioc, Finset.mem_singleton]
  omega

lemma mondaysBetween_mul (a : Nat) (ha : a % 7 = 1) :
    ∀ q, mondaysBetween a (a + 7 * q) = q := by
  intro q
  induction q with
  | zero => simp [mondaysBetween]
  | succ k ih =>
    have h1 : a ≤ a + 7 * k := by omega
    have h2 : a + 7 * k ≤ a + 7 * (k + 1) := by omega
    have hu : Finset.Ioc a (a + 7 * (k + 1)) =
        Finset.Ioc a (a + 7 * k) ∪ Finset.Ioc (a + 7 * k) (a + 7 * (k + 1)) :=
      (Finset.Ioc_union_Ioc_eq_Ioc h1 h2).symm
    have hd0 : Disjoint (Finset.Ioc a (a + 7 * k))
        (Finset.Ioc (a + 7 * k) (a + 7 * (k + 1))) := by
      refine Finset.disjoint_left.2 fun n hn1 hn2 => ?_
      simp only [Finset.mem_Ioc] at hn1 hn2
      omega
    have hd : Disjoint ((Finset.Ioc a (a + 7 * k)).filter (fun n => n % 7 = 1))
        ((Finset.Ioc (a + 7 * k) (a + 7 * (k + 1))).filter (fun n => n % 7 = 1)) :=
      Finset.disjoint_filter_filter hd0
    have hstep : a + 7 * (k + 1) = (a + 7 * k) + 7 := by omega
    unfold mondaysBetween at *
    rw [hu, Finset.filter_union, Finset.card_union_of_disjoint hd, ih, hstep,
      mondays_Ioc_week (a + 7 * k) (by omega), Finset.card_singleton]

lemma startOfMonth_valid (d : Date) (h : d.Valid) : (startOfMonth d).Valid := by
  obtain ⟨hy, hm1, hm2, hd1, hd2⟩ := h
  exact date_valid_mk _ _ _ hy hm1 hm2 (le_refl _) (daysInMonth_pos _ _)

/-- Claim C6: the week-of-month number is one plus the count of Mondays
between the week start of the first of the month and the week start of the
date; any date less than seven days past the month's first week start is in
week 1; March 2025 starts mid-week, so 2025-03-02 is still week 1 while
Monday 2025-03-03 opens week 2 (the first week holds fewer than 7 March
days). -/
theorem weekOfMonth_spec (d : Date) (h : d.Valid) :
    weekOfMonth d =
      1 + mondaysBetween (startOfWeek (startOfMonth d)).toDays (startOfWeek d).toDays ∧
    (d.toDays < (startOfWeek (startOfMonth d)).toDays + 7 → weekOfMonth d = 1) ∧
    weekOfMonth ⟨2025, 3, 2⟩ = 1 ∧ weekOfMonth ⟨2025, 3, 3⟩ = 2 := by
  obtain ⟨hy, hm1, hm2, hd1, hd2⟩ := h
  have hv : d.Valid := ⟨hy, hm1, hm2, hd1, hd2⟩
  have hsomv := startOfMonth_valid d hv
  have hf : (startOfMonth d).toDays =
      daysBeforeYear d.year + daysBeforeMonth d.year d.month + 1 := rfl
  have ht : d.toDays = daysBeforeYear d.year + daysBeforeMonth d.year d.month + d.day := rfl
  have hposf := toDays_pos (startOfMonth d) hsomv
  have hpost := toDays_pos d hv
  have hsA := (startOfWeek_toDays (startOfMonth d) hsomv).1
  have hsB := (startOfWeek_toDays d hv).1
  have hA := startOfWeek_monday (startOfMonth d) hsomv
  have hB := startOfWeek_monday d hv
  have hAB : (startOfWeek (startOfMonth d)).toDays ≤ (startOfWeek d).toDays := by
    omega
  refine ⟨?_, ?_, by decide, by decide⟩
  · obtain ⟨q, hq⟩ : ∃ q, (startOfWeek d).toDays =
        (startOfWeek (startOfMonth d)).toDays + 7 * q :=
      ⟨((startOfWeek d).toDays - (startOfWeek (startOfMonth d)).toDays) / 7, by omega⟩
    show ((startOfWeek d).toDays - (startOfWeek (startOfMonth d)).toDays) / 7 + 1 =
      1 + mondaysBetween (startOfWeek (startOfMonth d)).toDays (startOfWeek d).toDays
    rw [hq, mondaysBetween_mul _ hA q]
    omega
  · intro hclose
    show ((startOfWeek d).toDays - (startOfWeek (startOfMonth d)).toDays) / 7 + 1 = 1
    omega

/-- Witness for C6 at 2025-03-02, within seven days of the first week start
of March 2025. -/
theorem weekOfMonth_spec_inst : weekOfMonth ⟨2025, 3, 2⟩ = 1 :=
  (weekOfMonth_spec ⟨2025, 3, 2⟩ (by decide)).2.1 (by decide)

/-- One breadcrumb label.  The source renders strings from the reference
date's fields (year number, month name, week number, formatted day); each
constructor carries exactly the data the corresponding format string uses. -/
inductive Crumb where
  | summary : Crumb
  | yearC : Nat → Crumb
  | monthC : Nat → Crumb
  | weekC : Nat → Crumb
  | dayC : Date → Crumb
deriving Repr, DecidableEq

/-- renderBreadcrumbs from the source: a Summary crumb, the year crumb,
a month crumb unless the scope is summary or year, then a week-of-month
crumb for week scope or a day crumb for day scope. -/
def renderBreadcrumbs (d : Date) (scope : Scope) : List Crumb :=
  [Crumb.summary, Crumb.yearC d.year]
  ++ (if scope ≠ Scope.summary ∧ scope ≠ Scope.year then [Crumb.monthC d.month] else [])
  ++ (if scope = Scope.week then [Crumb.weekC (weekOfMonth d)]
      else if scope = Scope.day then [Crumb.dayC d] else [])

lemma crumbs_boundary_week :
    (startOfWeek ⟨2025, 3, 1⟩).month = 2 ∧
    renderBreadcrumbs ⟨2025, 3, 1⟩ .week =
      [Crumb.summary, Crumb.yearC 2025, Crumb.monthC 3, Crumb.weekC 1] := by
  constructor
  · decide
  · decide

/-- Claim C5: breadcrumbs always start with Summary followed by the year of
the reference date; the month crumb appears exactly for the week, month and
day scopes; a week-of-month crumb exactly for week; a day crumb exactly for
day; and the labels come from the reference date itself, so the week of
2025-03-01 (whose week start lies in February) is still labelled with
March. -/
theorem breadcrumbs_spec (d : Date) :
    renderBreadcrumbs d .summary = [Crumb.summary, Crumb.yearC d.year] ∧
    renderBreadcrumbs d .year = [Crumb.summary, Crumb.yearC d.year] ∧
    renderBreadcrumbs d .month =
      [Crumb.summary, Crumb.yearC d.year, Crumb.monthC d.month] ∧
    renderBreadcrumbs d .week =
      [Crumb.summary, Crumb.yearC d.year, Crumb.monthC d.month,
        Crumb.weekC (weekOfMonth d)] ∧
    renderBreadcrumbs d .day =
      [Crumb.summary, Crumb.yearC d.year, Crumb.monthC d.month, Crumb.dayC d] ∧
    (startOfWeek ⟨2025, 3, 1⟩).month = 2 ∧
    renderBreadcrumbs ⟨2025, 3, 1⟩ .week =
      [Crumb.summary, Crumb.yearC 2025, Crumb.monthC 3, Crumb.weekC 1] := by
  refine ⟨?_, ?_, ?_, ?_, ?_, crumbs_boundary_week.1, crumbs_boundary_week.2⟩ <;>
    simp [renderBreadcrumbs]

/-! ## Prompt selection (choosePrompt in src/unnamed/part_000) -/

/-- Sentiment labels of the analysis service. -/
inductive Sentiment where
  | positive
  | neutral
  | negative
deriving Repr, DecidableEq

/-- Analysis attached to an entry. -/
structure Analysis where
  sentiment : Sentiment
  intensity : Nat
  emotions : List String
  themes : List String
deriving Repr, DecidableEq

/-- A journal entry (Note in the source). -/
structure Note where
  id : String
  createdAt : String
  text : String
  analysis : Analysis
deriving Repr, DecidableEq

/-- The daily prompt pools, keyed by sentiment (PROMPTS.daily). -/
def PROMPTS_daily (s : Sentiment) : List String :=
  match s with
  | .positive =>
    ["What made today feel especially bright?",
     "Which moment gave you the most energy today?",
     "What’s one thing you’re grateful for right now?",
     "How can you carry today’s good vibes forward?"]
  | .neutral =>
    ["What’s one small thing that went well today?",
     "Where did you feel most like yourself today?",
     "What helped you feel steady today?",
     "What’s something you learned about yourself today?"]
  | .negative =>
    ["What’s one gentle thing you can do for yourself right now?",
     "What helped you get through the tough moments today?",
     "What would make tomorrow feel a little easier?",
     "What’s the smallest step forward you could take?"]

/-- The weekend prompt pool (PROMPTS.weekend). -/
def PROMPTS_weekend : List String :=
  ["Looking back at this week, what pattern do you notice in your emotions?",
   "What themes kept coming up in your week?",
   "Which day this week felt most aligned with who you are?",
   "What would you like to do differently next week?",
   "What story does your week tell about your growth?"]

/-- The monthly prompt pool (PROMPTS.monthly). -/
def PROMPTS_monthly : List String :=
  ["What emotional journey did you take this month?",
   "Which themes dominated your month, and how do you feel about them?",
   "What patterns in your emotions surprise you looking back?",
   "How have you grown from the beginning of this month?",
   "What would you like to focus on next month based on your patterns?"]

/-- The yearly prompt pool (PROMPTS.yearly). -/
def PROMPTS_yearly : List String :=
  ["What’s the biggest emotional shift you notice over this year?",
   "Which themes have been most persistent in your life?",
   "How has your relationship with yourself evolved?",
   "What patterns do you see that you want to change or strengthen?",
   "What story does this year tell about who you’re becoming?"]

/-- Number of entries with a given sentiment among the three most recent
entries (the note list is most-recent-first; the source slices the first
three and counts with a forEach loop). -/
def sentimentCount (notes : List Note) (s : Sentiment) : Nat :=
  (notes.take 3).countP (fun n => n.analysis.sentiment = s)

/-- The maximum of the three sentiment counts (Math.max in the source). -/
def sentimentMax (notes : List Note) : Nat :=
  max (sentimentCount notes .positive)
    (max (sentimentCount notes .neutral) (sentimentCount notes .negative))

/-- getRecentSentiment: majority sentiment of the three most recent entries,
neutral for an empty history, ties resolved positive first, then negative,
then neutral. -/
def getRecentSentiment (notes : List Note) : Sentiment :=
  if notes.isEmpty then .neutral
  else if sentimentCount notes .positive = sentimentMax notes then .positive
  else if sentimentCount notes .negative = sentimentMax notes then .negative
  else .neutral

/-- isWeekend: the current day is Friday, Saturday or Sunday
(`getDay` 5, 6 or 0). -/
def isWeekend (d : Date) : Bool :=
  d.getDay = 0 || d.getDay = 5 || d.getDay = 6

/-- Uniformly random pick in the source; modelled with an arbitrary
natural number reduced modulo the pool size. -/
def pickPrompt (pool : List String) (k : Nat) : String :=
  pool.getD (k % pool.length) ""

/-- choosePrompt: yearly pool within seven days of a year boundary, else
monthly pool within the first three or last days of a month, else the
weekend pool on Friday to Sunday, else the daily pool of the recent
sentiment. -/
def choosePrompt (today : Date) (notes : List Note) (k : Nat) : String :=
  if dayOfYear today ≤ 7 ∨ 358 ≤ dayOfYear today then
    "Year-end reflection: " ++ pickPrompt PROMPTS_yearly k
  else if today.day ≤ 3 ∨ 28 ≤ today.day then
    "Monthly reflection: " ++ pickPrompt PROMPTS_monthly k
  else if isWeekend today then
    "Week reflection: " ++ pickPrompt PROMPTS_weekend k
  else
    "Daily prompt: " ++ pickPrompt (PROMPTS_daily (getRecentSentiment notes)) k

lemma pickPrompt_mem (pool : List String) (k : Nat) (h : pool ≠ []) :
    pickPrompt pool k ∈ pool := by
  unfold pickPrompt
  have hlen : 0 < pool.length := List.length_pos.2 h
  have hlt : k % pool.length < pool.length := Nat.mod_lt _ hlen
  rw [List.getD_eq_getElem pool "" hlt]
  exact List.getElem_mem hlt

/-- Claim C2: choosePrompt picks its tier by the exact precedence of the
source: yearly near the year boundary, then monthly near a month boundary,
then the weekend pool on Friday to Sunday, then the sentiment daily pool;
consequently on day-of-year 365 or 1 the result always starts with the
year-end prefix. -/
theorem choosePrompt_tiers (d : Date) (notes : List Note) (k : Nat) :
    (dayOfYear d ≤ 7 ∨ 358 ≤ dayOfYear d →
      ∃ r ∈ PROMPTS_yearly,
        choosePrompt d notes k = "Year-end reflection: " ++ r) ∧
    (7 < dayOfYear d → dayOfYear d < 358 → d.day ≤ 3 ∨ 28 ≤ d.day →
      ∃ r ∈ PROMPTS_monthly,
        choosePrompt d notes k = "Monthly reflection: " ++ r) ∧
    (7 < dayOfYear d → dayOfYear d < 358 → 3 < d.day → d.day < 28 →
      d.getDay = 0 ∨ d.getDay = 5 ∨ d.getDay = 6 →
      ∃ r ∈ PROMPTS_weekend,
        choosePrompt d notes k = "Week reflection: " ++ r) ∧
    (7 < dayOfYear d → dayOfYear d < 358 → 3 < d.day → d.day < 28 →
      d.getDay ≠ 0 → d.getDay ≠ 5 → d.getDay ≠ 6 →
      ∃ r ∈ PROMPTS_daily (getRecentSentiment notes),
        choosePrompt d notes k = "Daily prompt: " ++ r) ∧
    (dayOfYear d = 365 ∨ dayOfYear d = 1 →
      ∃ r ∈ PROMPTS_yearly,
        choosePrompt d notes k = "Year-end reflection: " ++ r) := by
  have hyearly : dayOfYear d ≤ 7 ∨ 358 ≤ dayOfYear d →
      ∃ r ∈ PROMPTS_yearly,
        choosePrompt d notes k = "Year-end reflection: " ++ r := by
    intro h
    refine ⟨pickPrompt PROMPTS_yearly k,
      pickPrompt_mem _ _ (by simp [PROMPTS_yearly]), ?_⟩
    unfold choosePrompt
    rw [if_pos h]
  refine ⟨hyearly, ?_, ?_, ?_, fun h => hyearly (by omega)⟩
  · intro h1 h2 h3
    refine ⟨pickPrompt PROMPTS_monthly k,
      pickPrompt_mem _ _ (by simp [PROMPTS_monthly]), ?_⟩
    unfold choosePrompt
    rw [if_neg (by omega), if_pos h3]
  · intro h1 h2 h3 h4 h5
    refine ⟨pickPrompt PROMPTS_weekend k,
      pickPrompt_mem _ _ (by simp [PROMPTS_weekend]), ?_⟩
    unfold choosePrompt
    rw [if_neg (by omega), if_neg (by omega), if_pos (by simp [isWeekend]; omega)]
  · intro h1 h2 h3 h4 h5 h6 h7
    refine ⟨pickPrompt (PROMPTS_daily (getRecentSentiment notes)) k,
      pickPrompt_mem _ _ ?_, ?_⟩
    · cases getRecentSentiment notes <;> simp [PROMPTS_daily]
    · unfold choosePrompt
      rw [if_neg (by omega), if_neg (by omega), if_neg (by simp [isWeekend]; omega)]

/-- Witness for C2 on 2025-12-31, day-of-year 365. -/
theorem choosePrompt_tiers_inst :
    ∃ r ∈ PROMPTS_yearly,
      choosePrompt ⟨2025, 12, 31⟩ [] 0 = "Year-end reflection: " ++ r :=
  (choosePrompt_tiers ⟨2025, 12, 31⟩ [] 0).2.2.2.2 (Or.inl (by decide))

/-- Claim C3: the daily tier sentiment is the majority sentiment of the three
most recent entries; a strict majority wins, ties resolve positive first,
then negative, then neutral; an empty history yields neutral; and prompt
selection always produces a string drawn from one of the pools. -/
theorem recentSentiment_spec :
    getRecentSentiment [] = Sentiment.neutral ∧
    (∀ notes : List Note, notes ≠ [] →
      (sentimentCount notes .positive = sentimentMax notes →
        getRecentSentiment notes = .positive) ∧
      (sentimentCount notes .positive ≠ sentimentMax notes →
        sentimentCount notes .negative = sentimentMax notes →
        getRecentSentiment notes = .negative) ∧
      (sentimentCount notes .positive ≠ sentimentMax notes →
        sentimentCount notes .negative ≠ sentimentMax notes →
        getRecentSentiment notes = .neutral) ∧
      (sentimentCount notes .positive > sentimentCount notes .neutral →
        sentimentCount notes .positive > sentimentCount notes .negative →
        getRecentSentiment notes = .positive) ∧
      (sentimentCount notes .negative > sentimentCount notes .positive →
        sentimentCount notes .negative > sentimentCount notes .neutral →
        getRecentSentiment notes = .negative) ∧
      (sentimentCount notes .neutral > sentimentCount notes .positive →
        sentimentCount notes .neutral > sentimentCount notes .negative →
        getRecentSentiment notes = .neutral)) ∧
    (∀ (d : Date) (notes : List Note) (k : Nat),
      ∃ pre r, choosePrompt d notes k = pre ++ r ∧
        (r ∈ PROMPTS_yearly ∨ r ∈ PROMPTS_monthly ∨ r ∈ PROMPTS_weekend ∨
          ∃ s, r ∈ PROMPTS_daily s)) := by
  have hmx : ∀ notes : List Note, sentimentMax notes =
      max (sentimentCount notes .positive)
        (max (sentimentCount notes .neutral) (sentimentCount notes .negative)) :=
    fun _ => rfl
  refine ⟨rfl, ?_, ?_⟩
  · intro notes hne
    have hnb : ¬(notes.isEmpty = true) := by simp [hne]
    refine ⟨?_, ?_, ?_, ?_, ?_, ?_⟩
    · intro hpos
      unfold getRecentSentiment
      rw [if_neg hnb, if_pos hpos]
    · intro hpos hneg
      unfold getRecentSentiment
      rw [if_neg hnb, if_neg hpos, if_pos hneg]
    · intro hpos hneg
      unfold getRecentSentiment
      rw [if_neg hnb, if_neg hpos, if_neg hneg]
    · intro h1 h2
      have hpos : sentimentCount notes .positive = sentimentMax notes := by
        rw [hmx]; omega
      unfold getRecentSentiment
      rw [if_neg hnb, if_pos hpos]
    · intro h1 h2
      have hpos : sentimentCount notes .positive ≠ sentimentMax notes := by
        rw [hmx]; omega
      have hneg : sentimentCount notes .negative = sentimentMax notes := by
        rw [hmx]; omega
      unfold getRecentSentiment
      rw [if_neg hnb, if_neg hpos, if_pos hneg]
    · intro h1 h2
      have hpos : sentimentCount notes .positive ≠ sentimentMax notes := by
        rw [hmx]; omega
      have hneg : sentimentCount notes .negative ≠ sentimentMax notes := by
        rw [hmx]; omega
      unfold getRecentSentiment
      rw [if_neg hnb, if_neg hpos, if_neg hneg]
  · intro d notes k
    unfold choosePrompt
    split_ifs
    · exact ⟨_, _, rfl, Or.inl (pickPrompt_mem _ _ (by simp [PROMPTS_yearly]))⟩
    · exact ⟨_, _, rfl, Or.inr (Or.inl (pickPrompt_mem _ _ (by simp [PROMPTS_monthly])))⟩
    · exact ⟨_, _, rfl, Or.inr (Or.inr (Or.inl
        (pickPrompt_mem _ _ (by simp [PROMPTS_weekend]))))⟩
    · refine ⟨_, _, rfl, Or.inr (Or.inr (Or.inr ⟨getRecentSentiment notes,
        pickPrompt_mem _ _ ?_⟩))⟩
      cases getRecentSentiment notes <;> simp [PROMPTS_daily]

/-- Witness for C3: a single positive entry yields the positive daily pool. -/
theorem recentSentiment_spec_inst :
    getRecentSentiment [⟨"1", "2025-06-10", "note", ⟨.positive, 2, [], []⟩⟩] =
      Sentiment.positive :=
  ((recentSentiment_spec.2.1
      [⟨"1", "2025-06-10", "note", ⟨.positive, 2, [], []⟩⟩]
      (by simp)).1) (by decide)

/-! ## Overview aggregation (renderOverview) -/

/-- Insertion-order key list: the order in which labels first appear during
the flatten pass (JavaScript object keys enumerate in insertion order). -/
def firstSeen (l : List String) : List String :=
  l.foldl (fun acc x => if x ∈ acc then acc else acc ++ [x]) []

/-- Label-count pairs in first-seen order (Object.entries of the counts). -/
def tally (all : List String) : List (String × Nat) :=
  (firstSeen all).map (fun k => (k, all.count k))

/-- The stable descending sort by count performed by Array.prototype.sort
with comparator (b - a); Array.prototype.sort is stable, and insertion sort
with this comparator computes the same (unique) stable descending order. -/
def sortByCountDesc (l : List (String × Nat)) : List (String × Nat) :=
  List.insertionSort (fun p q => q.2 ≤ p.2) l

/-- Top five labels by descending count, ties in first-seen order. -/
def topLabels (all : List String) : List String :=
  ((sortByCountDesc (tally all)).take 5).map Prod.fst

/-- The aggregation of renderOverview: flatten all emotion labels and all
theme labels, count, and keep the top five of each. -/
def aggregate (entries : List Note) : List String × List String :=
  (topLabels (entries.flatMap fun n => n.analysis.emotions),
   topLabels (entries.flatMap fun n => n.analysis.themes))

/-- The caller-visible outcome of renderOverview: a no-data rendering for an
empty entry list, the aggregated top labels otherwise. -/
inductive OverviewOut where
  | noData : OverviewOut
  | data : List String → List String → OverviewOut
deriving Repr, DecidableEq

/-- renderOverview: an empty entry list renders the no-data placeholders and
returns before aggregating. -/
def renderOverview (entries : List Note) : OverviewOut :=
  if entries.isEmpty then .noData
  else .data (aggregate entries).1 (aggregate entries).2

lemma filter_orderedInsert (c : Nat) (p : String × Nat) :
    ∀ l : List (String × Nat),
      (List.orderedInsert (fun p q => q.2 ≤ p.2) p l).filter (fun q => q.2 == c) =
        if p.2 = c then p :: l.filter (fun q => q.2 == c)
        else l.filter (fun q => q.2 == c) := by
  intro l
  induction l with
  | nil =>
    by_cases hc : p.2 = c
    · simp [List.orderedInsert, List.filter, hc]
    · have hb : (p.2 == c) = false := by simp [hc]
      simp [List.orderedInsert, List.filter, hc, hb]
  | cons b t ih =>
    by_cases hr : b.2 ≤ p.2
    · rw [List.orderedInsert, if_pos hr]
      by_cases hc : p.2 = c <;> simp [List.filter_cons, hc]
    · rw [List.orderedInsert, if_neg hr]
      have hb : ¬(b.2 = c) ∨ ¬(p.2 = c) := by omega
      by_cases hc : p.2 = c
      · have hbc : ¬(b.2 = c) := by omega
        simp [List.filter_cons, hbc, ih, hc]
      · by_cases hbc : b.2 = c <;> simp [List.filter_cons, hbc, ih, hc]

lemma filter_sortByCountDesc (c : Nat) :
    ∀ l : List (String × Nat),
      (sortByCountDesc l).filter (fun q => q.2 == c) =
        l.filter (fun q => q.2 == c) := by
  intro l
  induction l with
  | nil => rfl
  | cons p t ih =>
    show (List.orderedInsert _ p (sortByCountDesc t)).filter _ = _
    rw [filter_orderedInsert]
    by_cases hc : p.2 = c <;> simp [List.filter_cons, hc, ih]

lemma sorted_sortByCountDesc (l : List (String × Nat)) :
    List.Sorted (fun p q : String × Nat => q.2 ≤ p.2) (sortByCountDesc l) := by
  haveI : IsTotal (String × Nat) (fun p q => q.2 ≤ p.2) := ⟨fun a b => le_total b.2 a.2⟩
  haveI : IsTrans (String × Nat) (fun p q => q.2 ≤ p.2) :=
    ⟨fun a b c h1 h2 => le_trans h2 h1⟩
  exact List.sorted_insertionSort _ l

lemma perm_sortByCountDesc (l : List (String × Nat)) :
    (sortByCountDesc l).Perm l :=
  List.perm_insertionSort _ l

/-- Claim C4: aggregate flattens the emotion and theme labels of all entries,
counts each label, and returns the top five of each in descending count
order with ties kept in first-seen order (the sort is stable); empty input
yields empty tops and renderOverview signals no data. -/
theorem aggregate_spec :
    (aggregate [] = ([], []) ∧ renderOverview [] = OverviewOut.noData) ∧
    (∀ entries : List Note,
      aggregate entries =
        (topLabels (entries.flatMap fun n => n.analysis.emotions),
         topLabels (entries.flatMap fun n => n.analysis.themes))) ∧
    (∀ all : List String,
      topLabels all = ((sortByCountDesc (tally all)).take 5).map Prod.fst ∧
      (topLabels all).length ≤ 5 ∧
      List.Sorted (fun p q : String × Nat => q.2 ≤ p.2) (sortByCountDesc (tally all)) ∧
      (sortByCountDesc (tally all)).Perm (tally all) ∧
      (∀ p ∈ tally all, p.2 = all.count p.1) ∧
      (∀ c : Nat,
        (sortByCountDesc (tally all)).filter (fun q => q.2 == c) =
          (tally all).filter (fun q => q.2 == c))) := by
  refine ⟨⟨rfl, rfl⟩, fun entries => rfl, fun all => ⟨rfl, ?_, sorted_sortByCountDesc _,
    perm_sortByCountDesc _, ?_, fun c => filter_sortByCountDesc c _⟩⟩
  · unfold topLabels
    rw [List.length_map]
    exact le_trans (List.length_take_le 5 _) (le_refl 5)
  · intro p hp
    unfold tally at hp
    obtain ⟨k, hk, rfl⟩ := List.mem_map.1 hp
    rfl

/-- Witness for C4: the count recorded in the tally of a concrete flatten
equals the frequency of the label. -/
theorem aggregate_spec_inst :
    (("calm", 2) : String × Nat) ∈ tally ["calm", "joy", "calm"] ∧
    (("calm", 2) : String × Nat).2 = (["calm", "joy", "calm"] : List String).count "calm" :=
  ⟨by decide,
   (aggregate_spec.2.2 ["calm", "joy", "calm"]).2.2.2.2.1 ("calm", 2) (by decide)⟩

/-! ## Network outcomes, analysis fallback, entry loading and pagination -/

/-- Outcome of a fetch: an HTTP response with a status and parsed body, or a
network/transport failure (a rejected fetch or JSON parse, which surfaces as
a thrown exception in the source). -/
inductive HttpOutcome (α : Type) where
  | resp : Nat → α → HttpOutcome α
  | netError : HttpOutcome α
deriving DecidableEq

/-- JavaScript Response.ok: status in the 2xx range. -/
def responseOk (status : Nat) : Bool := 200 ≤ status && status < 300

/-- The fallback Analysis returned when the analysis request fails. -/
def defaultAnalysis : Analysis := ⟨.neutral, 2, [], []⟩

/-- analyzeText from src/unnamed/part_000: the parsed analysis on a 2xx
response; on a non-2xx response the code throws and the catch returns the
default, and a network failure reaches the same catch. -/
def analyzeText (r : HttpOutcome Analysis) : Analysis :=
  match r with
  | .resp s body => if responseOk s then body else defaultAnalysis
  | .netError => defaultAnalysis

/-- The body POSTed to /api/entries/text by the save handler. -/
structure SavePayload where
  text : String
  createdAt : String
  analysis : Analysis
deriving Repr, DecidableEq

/-- The save handler builds its payload from the analyzeText result. -/
def buildSavePayload (text createdAt : String) (r : HttpOutcome Analysis) : SavePayload :=
  ⟨text, createdAt, analyzeText r⟩

/-- The mutable view state of the client. -/
structure ViewState where
  dateISO : String
  scope : Scope
  notes : List Note
  page : Nat
deriving Repr, DecidableEq

/-- loadEntries from src/client/src/main.ts: inside try, an ok response
stores the body and a non-2xx stores the empty list, and both then reset the
page to 1; the catch path for a network failure stores the empty list but
never reaches the page reset. -/
def loadEntriesClient (st : ViewState) (r : HttpOutcome (List Note)) : ViewState :=
  match r with
  | .resp s body =>
    if responseOk s then { st with notes := body, page := 1 }
    else { st with notes := [], page := 1 }
  | .netError => { st with notes := [] }

/-- loadEntries from src/unnamed/part_000: no try/catch, so a non-2xx
response stores the empty list and resets the page, while a rejected fetch
propagates out of loadEntries leaving the state unchanged. -/
def loadEntriesNoCatch (st : ViewState) (r : HttpOutcome (List Note)) :
    Except ViewState ViewState :=
  match r with
  | .resp s body =>
    .ok (if responseOk s then { st with notes := body, page := 1 }
         else { st with notes := [], page := 1 })
  | .netError => .error st

/-- renderEntries pagination: the slice of the notes from (page - 1) * 3 of
length at most 3 (state.perPage is 3). -/
def pageNotes (st : ViewState) : List Note :=
  (st.notes.drop ((st.page - 1) * 3)).take 3

/-- Claim C8: a non-2xx status or a network failure makes analyzeText return
exactly the default Analysis, so a save during an analysis outage carries a
neutral sentiment. -/
theorem analyzeText_fallback :
    (∀ (s : Nat) (body : Analysis), responseOk s = false →
      analyzeText (.resp s body) = defaultAnalysis) ∧
    analyzeText .netError = defaultAnalysis ∧
    (∀ text createdAt : String,
      (buildSavePayload text createdAt .netError).analysis.sentiment = .neutral) ∧
    defaultAnalysis =
      { sentiment := .neutral, intensity := 2, emotions := [], themes := [] } := by
  refine ⟨?_, rfl, fun text createdAt => rfl, rfl⟩
  intro s body hs
  simp [analyzeText, hs]

/-- Witness for C8 at status 503. -/
theorem analyzeText_fallback_inst :
    analyzeText (.resp 503 ⟨.positive, 5, ["joy"], ["work"]⟩) = defaultAnalysis :=
  analyzeText_fallback.1 503 ⟨.positive, 5, ["joy"], ["work"]⟩ (by decide)

/-- Counterexample for C9: in the part_000 variant of loadEntries a network
failure propagates as an exception and leaves the nonempty entry list
unchanged instead of setting it to the empty list. -/
theorem loadEntries_netError_cex :
    loadEntriesNoCatch
        ⟨"2025-03-09", Scope.week, [⟨"1", "2025-03-08", "hi", defaultAnalysis⟩], 1⟩
        .netError =
      .error ⟨"2025-03-09", Scope.week, [⟨"1", "2025-03-08", "hi", defaultAnalysis⟩], 1⟩ ∧
    (⟨"2025-03-09", Scope.week, [⟨"1", "2025-03-08", "hi", defaultAnalysis⟩], 1⟩ :
        ViewState).notes ≠ [] := by
  constructor
  · rfl
  · simp

/-- Claim C9 (amended): in the src/client/src/main.ts loadEntries every
failure, non-2xx or network, sets the entry list to empty with no retry; in
the part_000 variant only a non-2xx response is handled that way, while a
network failure propagates an exception with the state unchanged. -/
theorem loadEntries_failure_spec :
    (∀ (st : ViewState) (s : Nat) (body : List Note), responseOk s = false →
      loadEntriesClient st (.resp s body) = { st with notes := [], page := 1 }) ∧
    (∀ st : ViewState, loadEntriesClient st .netError = { st with notes := [] }) ∧
    (∀ (st : ViewState) (s : Nat) (body : List Note), responseOk s = false →
      loadEntriesNoCatch st (.resp s body) = .ok { st with notes := [], page := 1 }) ∧
    (∀ st : ViewState, loadEntriesNoCatch st .netError = .error st) := by
  refine ⟨?_, fun st => rfl, ?_, fun st => rfl⟩
  · intro st s body hs
    simp [loadEntriesClient, hs]
  · intro st s body hs
    simp [loadEntriesNoCatch, hs]

/-- Witness for C9 (amended) at status 500. -/
theorem loadEntries_failure_spec_inst :
    loadEntriesClient ⟨"2025-03-09", Scope.week, [], 4⟩ (.resp 500 []) =
      ⟨"2025-03-09", Scope.week, [], 1⟩ :=
  loadEntries_failure_spec.1 ⟨"2025-03-09", Scope.week, [], 4⟩ 500 [] (by decide)

lemma chunks_join {α : Type} :
    ∀ (n : Nat) (l : List α), l.length ≤ n →
      ((List.range ((l.length + 2) / 3)).flatMap fun i => (l.drop (i * 3)).take 3) = l := by
  intro n
  induction n with
  | zero =>
    intro l hl
    have : l = [] := List.eq_nil_of_length_eq_zero (by omega)
    subst this
    simp
  | succ k ih =>
    intro l hl
    match l with
    | [] => simp
    | a :: t =>
      have hlen3 : ((a :: t).drop 3).length = (a :: t).length - 3 := List.length_drop 3 _
      have hk : ((a :: t).length + 2) / 3 = (((a :: t).drop 3).length + 2) / 3 + 1 := by
        have h1 : 1 ≤ (a :: t).length := by simp
        omega
      rw [hk, List.range_succ_eq_map, List.flatMap_cons, List.flatMap_map]
      have hfun : (fun i => ((a :: t).drop (Nat.succ i * 3)).take 3) =
          (fun i => (((a :: t).drop 3).drop (i * 3)).take 3) := by
        funext i
        rw [List.drop_drop]
        have h3 : Nat.succ i * 3 = 3 + i * 3 := by omega
        rw [h3]
      rw [hfun, ih ((a :: t).drop 3) (by simp at hl ⊢; omega)]
      simp

/-- Claim C10 (amended): the rendered page is the three-element slice of the
notes starting at (page - 1) * 3, concatenating the pages in order rebuilds
the whole list, and loadEntries resets the page to 1 whenever an HTTP
response arrived (ok or not), while the catch path taken on a network
failure leaves the page unchanged. -/
theorem pagination_spec :
    (∀ st : ViewState,
      pageNotes st = (st.notes.drop ((st.page - 1) * 3)).take 3 ∧
      (pageNotes st).length ≤ 3) ∧
    (∀ notes : List Note,
      ((List.range ((notes.length + 2) / 3)).flatMap fun i =>
        pageNotes ⟨"", Scope.week, notes, i + 1⟩) = notes) ∧
    (∀ (st : ViewState) (s : Nat) (body : List Note),
      (loadEntriesClient st (.resp s body)).page = 1) ∧
    (∀ st : ViewState, (loadEntriesClient st .netError).page = st.page) := by
  refine ⟨fun st => ⟨rfl, ?_⟩, ?_, ?_, fun st => rfl⟩
  · unfold pageNotes
    exact List.length_take_le 3 _
  · intro notes
    have hfun : (fun i => pageNotes ⟨"", Scope.week, notes, i + 1⟩) =
        fun i => (notes.drop (i * 3)).take 3 := by
      funext i
      simp [pageNotes]
    rw [hfun]
    exact chunks_join notes.length notes (le_refl _)
  · intro st s body
    simp only [loadEntriesClient]
    split <;> rfl

/-- Counterexample for C10: a network failure completes loadEntries through
the catch path without resetting the page to 1. -/
theorem pagination_page_reset_cex :
    (loadEntriesClient ⟨"2025-03-09", Scope.week, [], 2⟩ .netError).page = 2 ∧
    (2 : Nat) ≠ 1 :=
  ⟨rfl, by decide⟩
